import Mathlib

/-!
Verification of the HIP adapter command-buffer implementation
(`source/adapters/hip/command_buffer.cpp`) of the unified-runtime project.

The development shallowly embeds the command-buffer graph model: a command
buffer owns a list of graph nodes (the HIP graph), a sync-point registry
mapping dense integer ids to graph nodes, and a list of command handles.
Native HIP graph calls (`hipGraphAddMemsetNode`, `hipGraphAddEmptyNode`,
`hipGraphAddKernelNode`, `hipGraphAddMemcpyNode1D`, `hipGraphAddMemcpyNode`)
are modelled as always-succeeding node insertions; their resource-failure
paths are outside the scope of the properties proved here.  The external
collaborator `setKernelParams` (from `enqueue.hpp`, outside this file) is
modelled by an explicit result parameter, since its outcome is not decided
by the code under verification.  Pointers are modelled as natural-number
addresses; a nullable pointer is an `Option`.
-/

/-- Result codes returned by the command-buffer entry points
(`ur_result_t` values actually used in `command_buffer.cpp`). -/
inductive UrResult where
  | success
  | errorInvalidValue
  | errorInvalidSize
  | errorInvalidKernel
  | errorInvalidWorkDimension
  | errorInvalidEventWaitList
  | errorInvalidOperation
  | errorAdapterSpecific
  | errorOutOfHostMemory
  | errorUnknown
  deriving DecidableEq, Repr

/-- Parameters of a HIP memset graph node (`hipMemsetParams` as filled in by
`enqueueCommandBufferFillHelper`): destination address, element size, height,
pitch, value, width. -/
structure MemsetParams where
  dst : Nat
  elementSize : Nat
  height : Nat
  pitch : Nat
  value : Nat
  width : Nat
  deriving DecidableEq, Repr

/-- Kind of a node added to the HIP graph by the command-buffer code. -/
inductive NodeKind where
  | empty
  | kernelNode
  | memcpy1D (dst src size : Nat)
  | memcpy3D
  | memset (p : MemsetParams)
  deriving DecidableEq, Repr

/-- A node of the HIP graph: its kind and the node ids of its dependencies
(the `DepsList` passed to the `hipGraphAdd*` call that created it). -/
structure GraphNode where
  kind : NodeKind
  deps : List Nat
  deriving DecidableEq, Repr

/-- Cached state of `ur_exp_command_buffer_command_handle_t_` relevant to the
claims: the work dimension and the three cached geometry triples.  The
fixed-size 3-element arrays of the source are modelled as triples. -/
structure CommandHandle where
  workDim : Nat
  globalWorkOffset : Nat × Nat × Nat
  globalWorkSize : Nat × Nat × Nat
  localWorkSize : Nat × Nat × Nat
  deriving DecidableEq, Repr

/-- State of `ur_exp_command_buffer_handle_t_` relevant to the claims.
`ctx` is the context identity, `finalized` models `HIPGraphExec != nullptr`,
`nodes` is the HIP graph (node id = list index), `syncPoints` is the
sync-point registry (`SyncPoints` map, id to node id), `commandHandles` is
the `CommandHandles` vector. -/
structure CommandBuffer where
  ctx : Nat
  isUpdatable : Bool
  finalized : Bool
  nodes : List GraphNode
  syncPoints : List (Nat × Nat)
  commandHandles : List CommandHandle
  deriving DecidableEq, Repr

/-- Modelled from the spec: `addSyncPoint` of `ur_exp_command_buffer_handle_t_`
lives in `command_buffer.hpp`, which is not part of the sources; the spec
describes the registry as an "ordered mapping from sync-point id (dense
increasing integer starting at 0) to the graph node it names", allocated in
insertion order with ids never reused.  Registers `node` under the next
dense id and returns it. -/
def CommandBuffer.addSyncPoint (cb : CommandBuffer) (node : Nat) :
    CommandBuffer × Nat :=
  let id := cb.syncPoints.length
  ({ cb with syncPoints := cb.syncPoints ++ [(id, node)] }, id)

/-- A `hipGraphAdd*` native call: appends a node with the given dependency
list to the HIP graph and returns its node id.  The native resource-failure
path is not modelled. -/
def CommandBuffer.addGraphNode (cb : CommandBuffer) (kind : NodeKind)
    (deps : List Nat) : CommandBuffer × Nat :=
  let id := cb.nodes.length
  ({ cb with nodes := cb.nodes ++ [{ kind := kind, deps := deps }] }, id)

/-- `getNodesFromSyncPoints`: resolves each sync point of the wait list to its
graph node via the `SyncPoints` map, failing with `INVALID_VALUE` at the
first id with no entry. -/
def getNodesFromSyncPoints (cb : CommandBuffer) :
    List Nat → Except UrResult (List Nat)
  | [] => .ok []
  | sp :: rest =>
    match cb.syncPoints.lookup sp with
    | some node => (getNodesFromSyncPoints cb rest).map (fun l => node :: l)
    | none => .error .errorInvalidValue

/-- The entries actually read from a wait-list pointer: `none` models a null
`pSyncPointWaitList`; `some l` models a pointer to the `l.length` ids `l`, of
which the first `numSyncPointsInWaitList` are read. -/
def readWaitList (num : Nat) (pWaitList : Option (List Nat)) : List Nat :=
  (pWaitList.getD []).take num

/-- The `UR_ASSERT(!(pSyncPointWaitList == NULL && numSyncPointsInWaitList >
0), ...)` parameter-consistency check shared by all append entry points. -/
def waitListConsistent (num : Nat) (pWaitList : Option (List Nat)) : Prop :=
  ¬ (pWaitList = none ∧ 0 < num)

instance (num : Nat) (p : Option (List Nat)) :
    Decidable (waitListConsistent num p) := by
  unfold waitListConsistent; infer_instance

/-- Result of an append entry point: the returned `ur_result_t`, the
command-buffer state after the call, and the value written through
`pSyncPoint` (`none` if nothing was written). -/
structure AppendResult where
  result : UrResult
  buffer : CommandBuffer
  syncPoint : Option Nat
  deriving DecidableEq, Repr

/-- `urCommandBufferAppendUSMMemcpyExp`: wait-list consistency check,
dependency resolution, then one 1D memcpy node. -/
def urCommandBufferAppendUSMMemcpyExp (cb : CommandBuffer) (dst src size : Nat)
    (num : Nat) (pWaitList : Option (List Nat)) : AppendResult :=
  if ¬ waitListConsistent num pWaitList then
    ⟨.errorInvalidEventWaitList, cb, none⟩
  else
    match getNodesFromSyncPoints cb (readWaitList num pWaitList) with
    | .error e => ⟨e, cb, none⟩
    | .ok deps =>
      let (cb1, node) := cb.addGraphNode (.memcpy1D dst src size) deps
      let (cb2, sp) := cb1.addSyncPoint node
      ⟨.success, cb2, some sp⟩

/-- Wrap-around of unsigned 64-bit `size_t` arithmetic: the sums in the
bounds checks `size + dstOffset <= getSize()` are computed in `size_t`, so
an overflowing sum wraps modulo `2^64`. -/
def sizeTWrap (n : Nat) : Nat :=
  n % 2 ^ 64

/-- `urCommandBufferAppendMemBufferCopyExp`: wait-list consistency check,
both bounds checks (`size + dstOffset <= dstSize`, `size + srcOffset <=
srcSize`, each sum computed in wrapping `size_t` arithmetic), dependency
resolution, then one 1D memcpy node.  Buffer base addresses are modelled as
0, so `getPtrWithOffset` yields the offset. -/
def urCommandBufferAppendMemBufferCopyExp (cb : CommandBuffer)
    (srcSize dstSize srcOffset dstOffset size : Nat)
    (num : Nat) (pWaitList : Option (List Nat)) : AppendResult :=
  if ¬ waitListConsistent num pWaitList then
    ⟨.errorInvalidEventWaitList, cb, none⟩
  else if ¬ (sizeTWrap (size + dstOffset) ≤ dstSize) then
    ⟨.errorInvalidSize, cb, none⟩
  else if ¬ (sizeTWrap (size + srcOffset) ≤ srcSize) then
    ⟨.errorInvalidSize, cb, none⟩
  else
    match getNodesFromSyncPoints cb (readWaitList num pWaitList) with
    | .error e => ⟨e, cb, none⟩
    | .ok deps =>
      let (cb1, node) := cb.addGraphNode (.memcpy1D dstOffset srcOffset size) deps
      let (cb2, sp) := cb1.addSyncPoint node
      ⟨.success, cb2, some sp⟩

/-- `urCommandBufferAppendMemBufferCopyRectExp`: wait-list consistency check,
dependency resolution, then one 3D memcpy node.  The source performs no
bounds check on the origins/region against the buffer sizes; the size and
geometry parameters are carried here only to mirror the signature. -/
def urCommandBufferAppendMemBufferCopyRectExp (cb : CommandBuffer)
    (srcSize dstSize : Nat) (srcOrigin dstOrigin region : Nat × Nat × Nat)
    (num : Nat) (pWaitList : Option (List Nat)) : AppendResult :=
  if ¬ waitListConsistent num pWaitList then
    ⟨.errorInvalidEventWaitList, cb, none⟩
  else
    match getNodesFromSyncPoints cb (readWaitList num pWaitList) with
    | .error e => ⟨e, cb, none⟩
    | .ok deps =>
      let (cb1, node) := cb.addGraphNode .memcpy3D deps
      let (cb2, sp) := cb1.addSyncPoint node
      ⟨.success, cb2, some sp⟩

/-- `urCommandBufferAppendMemBufferWriteExp`: wait-list consistency check,
dependency resolution, then one 1D memcpy node (host to device). -/
def urCommandBufferAppendMemBufferWriteExp (cb : CommandBuffer)
    (offset size src : Nat) (num : Nat) (pWaitList : Option (List Nat)) :
    AppendResult :=
  if ¬ waitListConsistent num pWaitList then
    ⟨.errorInvalidEventWaitList, cb, none⟩
  else
    match getNodesFromSyncPoints cb (readWaitList num pWaitList) with
    | .error e => ⟨e, cb, none⟩
    | .ok deps =>
      let (cb1, node) := cb.addGraphNode (.memcpy1D offset src size) deps
      let (cb2, sp) := cb1.addSyncPoint node
      ⟨.success, cb2, some sp⟩

/-- `urCommandBufferAppendMemBufferReadExp`: wait-list consistency check,
dependency resolution, then one 1D memcpy node (device to host). -/
def urCommandBufferAppendMemBufferReadExp (cb : CommandBuffer)
    (offset size dst : Nat) (num : Nat) (pWaitList : Option (List Nat)) :
    AppendResult :=
  if ¬ waitListConsistent num pWaitList then
    ⟨.errorInvalidEventWaitList, cb, none⟩
  else
    match getNodesFromSyncPoints cb (readWaitList num pWaitList) with
    | .error e => ⟨e, cb, none⟩
    | .ok deps =>
      let (cb1, node) := cb.addGraphNode (.memcpy1D dst offset size) deps
      let (cb2, sp) := cb1.addSyncPoint node
      ⟨.success, cb2, some sp⟩

/-- `urCommandBufferAppendMemBufferWriteRectExp`: wait-list consistency
check, dependency resolution, then one 3D memcpy node. -/
def urCommandBufferAppendMemBufferWriteRectExp (cb : CommandBuffer)
    (num : Nat) (pWaitList : Option (List Nat)) : AppendResult :=
  if ¬ waitListConsistent num pWaitList then
    ⟨.errorInvalidEventWaitList, cb, none⟩
  else
    match getNodesFromSyncPoints cb (readWaitList num pWaitList) with
    | .error e => ⟨e, cb, none⟩
    | .ok deps =>
      let (cb1, node) := cb.addGraphNode .memcpy3D deps
      let (cb2, sp) := cb1.addSyncPoint node
      ⟨.success, cb2, some sp⟩

/-- `urCommandBufferAppendMemBufferReadRectExp`: wait-list consistency check,
dependency resolution, then one 3D memcpy node. -/
def urCommandBufferAppendMemBufferReadRectExp (cb : CommandBuffer)
    (num : Nat) (pWaitList : Option (List Nat)) : AppendResult :=
  if ¬ waitListConsistent num pWaitList then
    ⟨.errorInvalidEventWaitList, cb, none⟩
  else
    match getNodesFromSyncPoints cb (readWaitList num pWaitList) with
    | .error e => ⟨e, cb, none⟩
    | .ok deps =>
      let (cb1, node) := cb.addGraphNode .memcpy3D deps
      let (cb2, sp) := cb1.addSyncPoint node
      ⟨.success, cb2, some sp⟩

/-- `urCommandBufferAppendUSMPrefetchExp`: the prefetch command is not
supported by HIP graphs; after wait-list consistency check and dependency
resolution, an empty node is recorded to preserve ordering, registered under
a fresh sync point, and the function reports the adapter-specific status
(with `setErrorMessage(..., UR_RESULT_SUCCESS)`). -/
def urCommandBufferAppendUSMPrefetchExp (cb : CommandBuffer)
    (num : Nat) (pWaitList : Option (List Nat)) : AppendResult :=
  if ¬ waitListConsistent num pWaitList then
    ⟨.errorInvalidEventWaitList, cb, none⟩
  else
    match getNodesFromSyncPoints cb (readWaitList num pWaitList) with
    | .error e => ⟨e, cb, none⟩
    | .ok deps =>
      let (cb1, node) := cb.addGraphNode .empty deps
      let (cb2, sp) := cb1.addSyncPoint node
      ⟨.errorAdapterSpecific, cb2, some sp⟩

/-- `urCommandBufferAppendUSMAdviseExp`: same no-op recording as prefetch,
reporting the adapter-specific status. -/
def urCommandBufferAppendUSMAdviseExp (cb : CommandBuffer)
    (num : Nat) (pWaitList : Option (List Nat)) : AppendResult :=
  if ¬ waitListConsistent num pWaitList then
    ⟨.errorInvalidEventWaitList, cb, none⟩
  else
    match getNodesFromSyncPoints cb (readWaitList num pWaitList) with
    | .error e => ⟨e, cb, none⟩
    | .ok deps =>
      let (cb1, node) := cb.addGraphNode .empty deps
      let (cb2, sp) := cb1.addSyncPoint node
      ⟨.errorAdapterSpecific, cb2, some sp⟩

/-- Little-endian `uint32` read of the first four pattern bytes
(`*(static_cast<const uint32_t *>(Pattern))`). -/
def patternU32 (pat : List Nat) : Nat :=
  pat.getD 0 0 + 256 * pat.getD 1 0 + 65536 * pat.getD 2 0 +
    16777216 * pat.getD 3 0

/-- Little-endian `uint16` read of the first two pattern bytes. -/
def patternU16 (pat : List Nat) : Nat :=
  pat.getD 0 0 + 256 * pat.getD 1 0

/-- The loop of `enqueueCommandBufferFillHelper` for patterns wider than four
bytes: for each `Step` in `[4, numberOfSteps)` one 1-byte-granularity memset
node is added whose sole dependency is the node of the previous step
(`DepsList` is cleared and refilled with it), registered under a fresh sync
point each time; `*SyncPoint` keeps the value of the last registration. -/
def fillLoop (dst : Nat) (pat : List Nat) (size numberOfSteps : Nat)
    (step prevNode lastSp : Nat) (cb : CommandBuffer) :
    UrResult × CommandBuffer × Option Nat :=
  if h : step < numberOfSteps then
    let value := pat.getD step 0
    let (cb1, node) := cb.addGraphNode
      (.memset ⟨dst + step, 1, size / numberOfSteps, numberOfSteps, value, 1⟩)
      [prevNode]
    let (cb2, sp) := cb1.addSyncPoint node
    fillLoop dst pat size numberOfSteps (step + 1) node sp cb2
  else
    (.success, cb, some lastSp)
  termination_by numberOfSteps - step
  decreasing_by omega

/-- `enqueueCommandBufferFillHelper`: resolves the wait list; for pattern
sizes 1, 2, 4 adds one memset node at native granularity; for larger
patterns adds one 4-byte-granularity node covering the region followed by
one 1-byte node per remaining pattern byte, chained via `fillLoop`. -/
def enqueueCommandBufferFillHelper (cb : CommandBuffer) (dst : Nat)
    (pat : List Nat) (patternSize size : Nat)
    (num : Nat) (pWaitList : Option (List Nat)) :
    UrResult × CommandBuffer × Option Nat :=
  match getNodesFromSyncPoints cb (readWaitList num pWaitList) with
  | .error e => (e, cb, none)
  | .ok deps =>
    if patternSize = 1 ∨ patternSize = 2 ∨ patternSize = 4 then
      let n := size / patternSize
      let value :=
        if patternSize = 1 then pat.getD 0 0
        else if patternSize = 2 then patternU16 pat
        else patternU32 pat
      let (cb1, node) := cb.addGraphNode
        (.memset ⟨dst, patternSize, n, patternSize, value, 1⟩) deps
      let (cb2, sp) := cb1.addSyncPoint node
      (.success, cb2, some sp)
    else
      let numberOfSteps := patternSize
      let (cb1, first) := cb.addGraphNode
        (.memset ⟨dst, 4, size / 4, 4, patternU32 pat, 1⟩) deps
      let (cb2, sp0) := cb1.addSyncPoint first
      fillLoop dst pat size numberOfSteps 4 first sp0 cb2

/-- The pattern validation of `urCommandBufferAppendMemBufferFillExp`:
`ArgsAreMultiplesOfPatternSize` is computed with `||` in the source
(`(offset % patternSize == 0) || (size % patternSize == 0)`). -/
def memBufferFillArgsCheck (offset size patternSize : Nat) : Prop :=
  offset % patternSize = 0 ∨ size % patternSize = 0

instance (o s p : Nat) : Decidable (memBufferFillArgsCheck o s p) := by
  unfold memBufferFillArgsCheck; infer_instance

/-- `PatternSizeIsValid`: `((patternSize & (patternSize - 1)) == 0) &&
(patternSize > 0)`, i.e. a positive power of two. -/
def patternSizeIsValid (patternSize : Nat) : Prop :=
  patternSize &&& (patternSize - 1) = 0 ∧ 0 < patternSize

instance (p : Nat) : Decidable (patternSizeIsValid p) := by
  unfold patternSizeIsValid; infer_instance

/-- `urCommandBufferAppendMemBufferFillExp`: validates the pattern (non-null,
power-of-two width, the `||`-combined offset/size multiple check) with
`INVALID_SIZE`, then the wait-list consistency, then delegates to the fill
helper with destination `getPtrWithOffset(..., offset)` (base address 0). -/
def urCommandBufferAppendMemBufferFillExp (cb : CommandBuffer)
    (pPattern : Option (List Nat)) (patternSize offset size : Nat)
    (num : Nat) (pWaitList : Option (List Nat)) : AppendResult :=
  if ¬ (memBufferFillArgsCheck offset size patternSize ∧
        pPattern ≠ none ∧ patternSizeIsValid patternSize) then
    ⟨.errorInvalidSize, cb, none⟩
  else if ¬ waitListConsistent num pWaitList then
    ⟨.errorInvalidEventWaitList, cb, none⟩
  else
    let (r, cb', sp) := enqueueCommandBufferFillHelper cb offset
      (pPattern.getD []) patternSize size num pWaitList
    ⟨r, cb', sp⟩

/-- `urCommandBufferAppendUSMFillExp`: validates the wait-list consistency,
then the pattern (non-null and power-of-two width only; there is no
offset/size multiple check in this entry point), then delegates to the fill
helper. -/
def urCommandBufferAppendUSMFillExp (cb : CommandBuffer) (ptr : Nat)
    (pPattern : Option (List Nat)) (patternSize size : Nat)
    (num : Nat) (pWaitList : Option (List Nat)) : AppendResult :=
  if ¬ waitListConsistent num pWaitList then
    ⟨.errorInvalidEventWaitList, cb, none⟩
  else if ¬ (pPattern ≠ none ∧ patternSizeIsValid patternSize) then
    ⟨.errorInvalidSize, cb, none⟩
  else
    let (r, cb', sp) := enqueueCommandBufferFillHelper cb ptr
      (pPattern.getD []) patternSize size num pWaitList
    ⟨r, cb', sp⟩

/-- Kernel state relevant to the claims: the context it was created against
and its argument store.  The argument store models the collaborating kernel
object's indexed-argument interface (`kernel.hpp`, outside this file):
entries are (index, size, value), where a `none` value models the cleared
argument of `setKernelArg(idx, 0, nullptr)`. -/
structure Kernel where
  ctx : Nat
  args : List (Nat × Nat × Option Nat)
  deriving DecidableEq, Repr

/-- Modelled from the spec: the collaborator kernel object "exposes get/set
of indexed arguments (pointer, scalar, or cleared)"; `setKernelArg` replaces
the binding at the index. -/
def Kernel.setKernelArg (k : Kernel) (idx size : Nat) (value : Option Nat) :
    Kernel :=
  { k with args := (idx, size, value) ::
      k.args.filter (fun a => a.1 ≠ idx) }

/-- `std::memcpy` of `WorkDim` elements from a user 3-coordinate into a
cached 3-element array, followed by the `std::memset` zero-fill of the
remaining elements (constructor lines for `GlobalWorkOffset` and
`GlobalWorkSize`; the spec describes all cached coordinates as "zero-filled
for unused dimensions"). -/
def copyGeom (workDim : Nat) (src : Nat × Nat × Nat) : Nat × Nat × Nat :=
  match workDim with
  | 0 => (0, 0, 0)
  | 1 => (src.1, 0, 0)
  | 2 => (src.1, src.2.1, 0)
  | _ => src

/-- Constructor of `ur_exp_command_buffer_command_handle_t_`: copies the
first `WorkDim` coordinates of offset and global size and zero-fills the
rest; the local size is copied if provided and all-zero otherwise.  (For a
provided local size the source leaves elements beyond `WorkDim`
uninitialized; the model zero-fills them, and no theorem below reads
them.) -/
def mkCommandHandle (workDim : Nat) (gwo gws : Nat × Nat × Nat)
    (lws : Option (Nat × Nat × Nat)) : CommandHandle :=
  { workDim := workDim
    globalWorkOffset := copyGeom workDim gwo
    globalWorkSize := copyGeom workDim gws
    localWorkSize :=
      match lws with
      | some l => copyGeom workDim l
      | none => (0, 0, 0) }

/-- Result of `urCommandBufferAppendKernelLaunchExp`: the returned result,
the buffer state, the value written through `pSyncPoint`, and the command
handle written through `phCommand` (`none` when no handle was produced). -/
structure KernelAppendResult where
  result : UrResult
  buffer : CommandBuffer
  syncPoint : Option Nat
  command : Option CommandHandle
  deriving DecidableEq, Repr

/-- `urCommandBufferAppendKernelLaunchExp`: context and work-dimension
preconditions, wait-list consistency, dependency resolution; the empty-node
path when the first element of `pGlobalWorkSize` is zero; otherwise
`setKernelParams` (external, modelled by `skpResult`), one kernel node, a
fresh sync point, and a new command handle pushed onto `CommandHandles`. -/
def urCommandBufferAppendKernelLaunchExp (cb : CommandBuffer) (kernel : Kernel)
    (workDim : Nat) (gwo gws : Nat × Nat × Nat) (lws : Option (Nat × Nat × Nat))
    (num : Nat) (pWaitList : Option (List Nat)) (skpResult : UrResult) :
    KernelAppendResult :=
  if ¬ (cb.ctx = kernel.ctx) then ⟨.errorInvalidKernel, cb, none, none⟩
  else if ¬ (0 < workDim) then ⟨.errorInvalidWorkDimension, cb, none, none⟩
  else if ¬ (workDim < 4) then ⟨.errorInvalidWorkDimension, cb, none, none⟩
  else if ¬ waitListConsistent num pWaitList then
    ⟨.errorInvalidEventWaitList, cb, none, none⟩
  else
    match getNodesFromSyncPoints cb (readWaitList num pWaitList) with
    | .error e => ⟨e, cb, none, none⟩
    | .ok deps =>
      if gws.1 = 0 then
        let (cb1, node) := cb.addGraphNode .empty deps
        let (cb2, sp) := cb1.addSyncPoint node
        ⟨.success, cb2, some sp, none⟩
      else if skpResult ≠ .success then ⟨skpResult, cb, none, none⟩
      else
        let (cb1, node) := cb.addGraphNode .kernelNode deps
        let (cb2, sp) := cb1.addSyncPoint node
        let newCommand := mkCommandHandle workDim gwo gws lws
        let cb3 := { cb2 with commandHandles := cb2.commandHandles ++ [newCommand] }
        ⟨.success, cb3, some sp, some newCommand⟩

/-- The `ur_exp_command_buffer_update_kernel_launch_desc_t` descriptor:
pointer-argument patches (index, value), memobj-argument patches (index,
object or null), value-argument patches (index, size, value), and the
optional new geometry (`newWorkDim == 0` or a null pointer means the field
is omitted). -/
structure UpdateKernelLaunchDesc where
  newPointerArgs : List (Nat × Nat)
  newMemObjArgs : List (Nat × Option Nat)
  newValueArgs : List (Nat × Nat × Nat)
  newWorkDim : Nat
  pNewGlobalWorkOffset : Option (Nat × Nat × Nat)
  pNewGlobalWorkSize : Option (Nat × Nat × Nat)
  pNewLocalWorkSize : Option (Nat × Nat × Nat)
  deriving DecidableEq, Repr

/-- Modelled from the spec: `setGlobalOffset` of the command handle lives in
`command_buffer.hpp`, not in the sources; per the spec the cached coordinate
is a fixed 3-element array "zero-filled for unused dimensions", so the first
`WorkDim` elements are copied and the rest zeroed. -/
def CommandHandle.setGlobalOffset (cmd : CommandHandle)
    (gwo : Nat × Nat × Nat) : CommandHandle :=
  { cmd with globalWorkOffset := copyGeom cmd.workDim gwo }

/-- Modelled from the spec: `setGlobalSize`, as `setGlobalOffset`. -/
def CommandHandle.setGlobalSize (cmd : CommandHandle)
    (gws : Nat × Nat × Nat) : CommandHandle :=
  { cmd with globalWorkSize := copyGeom cmd.workDim gws }

/-- Modelled from the spec: `setLocalSize`, as `setGlobalOffset`. -/
def CommandHandle.setLocalSize (cmd : CommandHandle)
    (lws : Nat × Nat × Nat) : CommandHandle :=
  { cmd with localWorkSize := copyGeom cmd.workDim lws }

/-- The pointer-argument patch loop of `urCommandBufferUpdateKernelLaunchExp`:
`setKernelArg(argIndex, sizeof(void*), pNewPointerArg)` for each entry.
Pointer width is modelled as 8. -/
def applyPointerArgs (k : Kernel) : List (Nat × Nat) → Kernel
  | [] => k
  | (idx, v) :: rest => applyPointerArgs (k.setKernelArg idx 8 (some v)) rest

/-- The memobj-argument patch loop: a null object clears the argument via
`setKernelArg(argIndex, 0, nullptr)`, otherwise the object's device address
is set with pointer width. -/
def applyMemObjArgs (k : Kernel) : List (Nat × Option Nat) → Kernel
  | [] => k
  | (idx, none) :: rest => applyMemObjArgs (k.setKernelArg idx 0 none) rest
  | (idx, some v) :: rest => applyMemObjArgs (k.setKernelArg idx 8 (some v)) rest

/-- The value-argument patch loop: `setKernelArg(argIndex, argSize,
pNewValueArg)` for each entry. -/
def applyValueArgs (k : Kernel) : List (Nat × Nat × Nat) → Kernel
  | [] => k
  | (idx, size, v) :: rest => applyValueArgs (k.setKernelArg idx size (some v)) rest

/-- `urCommandBufferUpdateKernelLaunchExp`: fails with `INVALID_OPERATION`
when the owning buffer has no executable graph (never finalized) or was not
created updatable; otherwise patches the kernel arguments (pointer, memobj,
value, in that order), then the cached geometry (each field only when
supplied; a supplied `newWorkDim` must be below 4), then recomputes launch
parameters via the external `setKernelParams` (modelled by `skpResult`) and
patches the node in place.  Returns the result, the command handle state,
and the kernel state after the call. -/
def urCommandBufferUpdateKernelLaunchExp (cb : CommandBuffer)
    (cmd : CommandHandle) (kernel : Kernel) (desc : UpdateKernelLaunchDesc)
    (skpResult : UrResult) : UrResult × CommandHandle × Kernel :=
  if ¬ cb.finalized then (.errorInvalidOperation, cmd, kernel)
  else if ¬ cb.isUpdatable then (.errorInvalidOperation, cmd, kernel)
  else
    let k1 := applyPointerArgs kernel desc.newPointerArgs
    let k2 := applyMemObjArgs k1 desc.newMemObjArgs
    let k3 := applyValueArgs k2 desc.newValueArgs
    if desc.newWorkDim ≠ 0 ∧ ¬ (desc.newWorkDim < 4) then
      (.errorInvalidWorkDimension, cmd, k3)
    else
      let cmd1 := if desc.newWorkDim ≠ 0 then
          { cmd with workDim := desc.newWorkDim } else cmd
      let cmd2 := match desc.pNewGlobalWorkOffset with
        | some o => cmd1.setGlobalOffset o
        | none => cmd1
      let cmd3 := match desc.pNewGlobalWorkSize with
        | some s => cmd2.setGlobalSize s
        | none => cmd2
      let cmd4 := match desc.pNewLocalWorkSize with
        | some l => cmd3.setLocalSize l
        | none => cmd3
      if skpResult ≠ .success then (skpResult, cmd4, k3)
      else (.success, cmd4, k3)

namespace RC

/-!
Reference-counting lifecycle model.  `incrementInternalReferenceCount`,
`decrementInternalReferenceCount` and the two external-count counterparts
live in `command_buffer.hpp`, which is not part of the sources; they are
modelled from the spec as atomic increment / decrement-returning-new-value
on natural-number counters, with an `alive` flag recording whether the
`delete` of the release helpers has run.  The release orchestration
(`commandBufferReleaseInternal`, `commandHandleReleaseInternal`,
`urCommandBufferReleaseExp`, `urCommandBufferRetainExp`,
`urCommandBufferRetainCommandExp`, `urCommandBufferReleaseCommandExp`) is
taken from `command_buffer.cpp`.
-/

/-- Reference counts of one `ur_exp_command_buffer_command_handle_t_`;
`alive = false` once `commandHandleReleaseInternal` has deleted it. -/
structure HandleRC where
  refExternal : Nat
  refInternal : Nat
  alive : Bool
  deriving DecidableEq, Repr

/-- A command buffer with its owned command handles (`CommandHandles`), seen
through the reference-counting state only. -/
structure BufWorld where
  bufExternal : Nat
  bufInternal : Nat
  bufAlive : Bool
  handles : List HandleRC
  deriving DecidableEq, Repr

/-- Constructor of `ur_exp_command_buffer_handle_t_`:
`RefCountInternal{1}, RefCountExternal{1}`, no owned handles. -/
def createBuffer : BufWorld :=
  { bufExternal := 1, bufInternal := 1, bufAlive := true, handles := [] }

/-- `urCommandBufferRetainExp`: increment internal then external count. -/
def urCommandBufferRetainExp (w : BufWorld) : BufWorld :=
  { w with bufInternal := w.bufInternal + 1, bufExternal := w.bufExternal + 1 }

/-- `commandBufferReleaseInternal`: decrement the internal count; when the
new value is zero, `delete CommandBuffer`. -/
def commandBufferReleaseInternal (w : BufWorld) : BufWorld :=
  if w.bufInternal - 1 ≠ 0 then { w with bufInternal := w.bufInternal - 1 }
  else { w with bufInternal := 0, bufAlive := false }

/-- The refcount effect of the command-handle constructor plus its call site
in `urCommandBufferAppendKernelLaunchExp`: the handle starts with
`RefCountInternal(1), RefCountExternal(1)`, the constructor increments the
owning buffer's internal count, the call site increments the handle's
internal count once more (for the `CommandHandles` list ownership) and
pushes the handle onto the list. -/
def appendKernelCommand (w : BufWorld) : BufWorld :=
  { w with bufInternal := w.bufInternal + 1,
           handles := w.handles ++ [⟨1, 2, true⟩] }

/-- `urCommandBufferRetainCommandExp` on handle `i`: increment its external
and internal counts. -/
def urCommandBufferRetainCommandExp (w : BufWorld) (i : Nat) : BufWorld :=
  match w.handles.get? i with
  | none => w
  | some h =>
    let h' : HandleRC := { h with refExternal := h.refExternal + 1,
                                  refInternal := h.refInternal + 1 }
    { w with handles := w.handles.set i h' }

/-- `commandHandleReleaseInternal` on handle `i`: decrement its internal
count; when the new value is zero, release the parent buffer's internal
count and `delete Command`.  Calling it on an already-deleted handle is
undefined behaviour in the source (use-after-free), so the model leaves the
state unchanged in that case; no theorem below relies on that branch. -/
def commandHandleReleaseInternalAt (w : BufWorld) (i : Nat) : BufWorld :=
  match w.handles.get? i with
  | none => w
  | some h =>
    if h.alive = false then w
    else if h.refInternal - 1 ≠ 0 then
      let h' : HandleRC := { h with refInternal := h.refInternal - 1 }
      { w with handles := w.handles.set i h' }
    else
      let h' : HandleRC := { h with refInternal := 0, alive := false }
      commandBufferReleaseInternal { w with handles := w.handles.set i h' }

/-- `urCommandBufferReleaseCommandExp` on handle `i`: decrement its external
count, then run its internal release. -/
def urCommandBufferReleaseCommandExp (w : BufWorld) (i : Nat) : BufWorld :=
  match w.handles.get? i with
  | none => w
  | some h =>
    let h' : HandleRC := { h with refExternal := h.refExternal - 1 }
    commandHandleReleaseInternalAt { w with handles := w.handles.set i h' } i

/-- The `for (auto Command : hCommandBuffer->CommandHandles)` loop of
`urCommandBufferReleaseExp`, threading the buffer's internal count and alive
flag through the per-handle internal releases.  A handle already deleted is
skipped (releasing it is undefined behaviour in the source). -/
def forceReleaseList : List HandleRC → Nat → Bool →
    List HandleRC × Nat × Bool
  | [], bufInt, bufAlive => ([], bufInt, bufAlive)
  | h :: t, bufInt, bufAlive =>
    if h.alive = false then
      let (t', b', a') := forceReleaseList t bufInt bufAlive
      (h :: t', b', a')
    else if h.refInternal - 1 ≠ 0 then
      let (t', b', a') := forceReleaseList t bufInt bufAlive
      ({ h with refInternal := h.refInternal - 1 } :: t', b', a')
    else
      let bufInt' := bufInt - 1
      let bufAlive' := if bufInt - 1 ≠ 0 then bufAlive else false
      let (t', b', a') := forceReleaseList t bufInt' bufAlive'
      ({ h with refInternal := 0, alive := false } :: t', b', a')

/-- `urCommandBufferReleaseExp`: decrement the external count; exactly when
it reaches zero, internally release every owned command handle; then run the
buffer's own internal release. -/
def urCommandBufferReleaseExp (w : BufWorld) : BufWorld :=
  let e := w.bufExternal - 1
  let base := { w with bufExternal := e }
  let w2 :=
    if e = 0 then
      let (hs, bi, ba) := forceReleaseList base.handles base.bufInternal
        base.bufAlive
      { base with handles := hs, bufInternal := bi, bufAlive := ba }
    else base
  commandBufferReleaseInternal w2

/-- Effect of the force-release pass on one live handle: the internal count
drops by one, deleting the handle when it reaches zero. -/
def stepHandle (h : HandleRC) : HandleRC :=
  if h.alive = false then h
  else if h.refInternal - 1 ≠ 0 then
    { h with refInternal := h.refInternal - 1 }
  else { h with refInternal := 0, alive := false }

/-- Number of still-live handles in a list. -/
def aliveCount (hs : List HandleRC) : Nat :=
  (hs.filter (fun h => h.alive)).length

/-- Number of handles the force-release pass deletes: live handles whose
internal count is exactly one. -/
def dyingCount (hs : List HandleRC) : Nat :=
  (hs.filter (fun h => h.alive && h.refInternal == 1)).length

/-- Reference-count invariant tying the buffer to its handles: the buffer is
live, its internal count is the external count plus one unit per live owned
handle, and every live handle's internal count is positive. -/
def Invariant (w : BufWorld) : Prop :=
  w.bufAlive = true ∧
  w.bufInternal = w.bufExternal + aliveCount w.handles ∧
  ∀ h ∈ w.handles, h.alive = true → 1 ≤ h.refInternal

end RC

/-- Well-formedness of the sync-point registry: ids are exactly `0, 1, ...`
in insertion order and every entry names an existing graph node. -/
def CommandBuffer.wellFormed (cb : CommandBuffer) : Prop :=
  cb.syncPoints.map Prod.fst = List.range cb.syncPoints.length ∧
  ∀ p ∈ cb.syncPoints, p.2 < cb.nodes.length

instance (cb : CommandBuffer) : Decidable cb.wellFormed := by
  unfold CommandBuffer.wellFormed; infer_instance

/-- Resolution fails with `INVALID_VALUE` as soon as the wait list contains
an id with no entry in the registry. -/
lemma getNodesFromSyncPoints_error_of_unknown (cb : CommandBuffer)
    (wl : List Nat) (i : Nat) (hmem : i ∈ wl)
    (hun : cb.syncPoints.lookup i = none) :
    getNodesFromSyncPoints cb wl = .error .errorInvalidValue := by
  induction wl with
  | nil => cases hmem
  | cons sp rest ih =>
    unfold getNodesFromSyncPoints
    rcases List.mem_cons.mp hmem with rfl | hrest
    · rw [hun]
    · cases hlk : cb.syncPoints.lookup sp with
      | none => rfl
      | some node => rw [ih hrest]; rfl

/-- A wait list containing any id is a non-null pointer. -/
lemma readWaitList_mem_not_none (num : Nat) (p : Option (List Nat))
    (i : Nat) (hmem : i ∈ readWaitList num p) : p ≠ none := by
  intro h
  subst h
  simp [readWaitList] at hmem

/-- Appending one node and registering it under a fresh sync point preserves
registry well-formedness. -/
lemma wellFormed_append_one (cb : CommandBuffer) (node : GraphNode)
    (h : cb.wellFormed) :
    CommandBuffer.wellFormed
      { cb with nodes := cb.nodes ++ [node],
                syncPoints := cb.syncPoints ++
                  [(cb.syncPoints.length, cb.nodes.length)] } := by
  obtain ⟨h1, h2⟩ := h
  constructor
  · simp only [List.map_append, List.length_append, List.map_cons,
      List.map_nil, List.length_singleton, h1]
    rw [List.range_succ]
  · intro p hp
    simp only [List.length_append, List.length_singleton]
    rcases List.mem_append.mp hp with hold | hnew
    · exact Nat.lt_succ_of_lt (h2 p hold)
    · simp only [List.mem_singleton] at hnew
      subst hnew
      exact Nat.lt_succ_self _

/-- Claim C9: `urCommandBufferAppendUSMPrefetchExp` and
`urCommandBufferAppendUSMAdviseExp` each record exactly one empty no-op node
carrying the resolved wait-list dependency edges, register it under a fresh
sync point written to the out-parameter, and report the adapter-specific
status, which differs from success and from every hard-failure code used by
the module, leaving the registry well-formed. -/
theorem prefetch_advise_record_noop (cb : CommandBuffer) (num : Nat)
    (pWaitList : Option (List Nat)) (deps : List Nat)
    (hres : getNodesFromSyncPoints cb (readWaitList num pWaitList) = .ok deps)
    (hwl : waitListConsistent num pWaitList) :
    (urCommandBufferAppendUSMPrefetchExp cb num pWaitList =
      ⟨.errorAdapterSpecific,
        { cb with nodes := cb.nodes ++ [⟨.empty, deps⟩],
                  syncPoints := cb.syncPoints ++
                    [(cb.syncPoints.length, cb.nodes.length)] },
        some cb.syncPoints.length⟩) ∧
    (urCommandBufferAppendUSMAdviseExp cb num pWaitList =
      ⟨.errorAdapterSpecific,
        { cb with nodes := cb.nodes ++ [⟨.empty, deps⟩],
                  syncPoints := cb.syncPoints ++
                    [(cb.syncPoints.length, cb.nodes.length)] },
        some cb.syncPoints.length⟩) ∧
    UrResult.errorAdapterSpecific ≠ .success ∧
    UrResult.errorAdapterSpecific ≠ .errorInvalidValue ∧
    UrResult.errorAdapterSpecific ≠ .errorInvalidSize ∧
    UrResult.errorAdapterSpecific ≠ .errorInvalidKernel ∧
    UrResult.errorAdapterSpecific ≠ .errorInvalidWorkDimension ∧
    UrResult.errorAdapterSpecific ≠ .errorInvalidEventWaitList ∧
    UrResult.errorAdapterSpecific ≠ .errorInvalidOperation ∧
    UrResult.errorAdapterSpecific ≠ .errorOutOfHostMemory ∧
    UrResult.errorAdapterSpecific ≠ .errorUnknown ∧
    (cb.wellFormed →
      (urCommandBufferAppendUSMPrefetchExp cb num pWaitList).buffer.wellFormed ∧
      (urCommandBufferAppendUSMAdviseExp cb num pWaitList).buffer.wellFormed) := by
  have hp : urCommandBufferAppendUSMPrefetchExp cb num pWaitList =
      ⟨.errorAdapterSpecific,
        { cb with nodes := cb.nodes ++ [⟨.empty, deps⟩],
                  syncPoints := cb.syncPoints ++
                    [(cb.syncPoints.length, cb.nodes.length)] },
        some cb.syncPoints.length⟩ := by
    unfold urCommandBufferAppendUSMPrefetchExp
    rw [if_neg (by simpa using hwl), hres]
    rfl
  have ha : urCommandBufferAppendUSMAdviseExp cb num pWaitList =
      ⟨.errorAdapterSpecific,
        { cb with nodes := cb.nodes ++ [⟨.empty, deps⟩],
                  syncPoints := cb.syncPoints ++
                    [(cb.syncPoints.length, cb.nodes.length)] },
        some cb.syncPoints.length⟩ := by
    unfold urCommandBufferAppendUSMAdviseExp
    rw [if_neg (by simpa using hwl), hres]
    rfl
  refine ⟨hp, ha, by decide, by decide, by decide, by decide, by decide,
    by decide, by decide, by decide, by decide, fun hwf => ⟨?_, ?_⟩⟩
  · rw [hp]
    exact wellFormed_append_one cb ⟨.empty, deps⟩ hwf
  · rw [ha]
    exact wellFormed_append_one cb ⟨.empty, deps⟩ hwf

/-- Claim C9 witness: the theorem applied to the empty command buffer with an
empty wait list. -/
theorem prefetch_advise_record_noop_witness :
    urCommandBufferAppendUSMPrefetchExp ⟨0, false, false, [], [], []⟩ 0 (some []) =
      ⟨.errorAdapterSpecific, ⟨0, false, false, [⟨.empty, []⟩], [(0, 0)], []⟩,
        some 0⟩ :=
  (prefetch_advise_record_noop ⟨0, false, false, [], [], []⟩ 0 (some []) []
    rfl (by decide)).1

/-- Claim C10: `urCommandBufferAppendKernelLaunchExp` fails with the
invalid-kernel error when the kernel's context differs from the command
buffer's context, and (when the contexts match) with the
invalid-work-dimension error when `workDim` is 0 or greater than 3; in each
case the buffer is returned untouched and no sync point or command handle is
produced, for every wait list — so the failure happens before the wait list
is resolved and before any graph mutation. -/
theorem kernelLaunch_precondition_errors (cb : CommandBuffer) (kernel : Kernel)
    (workDim : Nat) (gwo gws : Nat × Nat × Nat) (lws : Option (Nat × Nat × Nat))
    (num : Nat) (pWaitList : Option (List Nat)) (skpResult : UrResult) :
    (cb.ctx ≠ kernel.ctx →
      urCommandBufferAppendKernelLaunchExp cb kernel workDim gwo gws lws num
        pWaitList skpResult = ⟨.errorInvalidKernel, cb, none, none⟩) ∧
    (cb.ctx = kernel.ctx → workDim = 0 ∨ 3 < workDim →
      urCommandBufferAppendKernelLaunchExp cb kernel workDim gwo gws lws num
        pWaitList skpResult = ⟨.errorInvalidWorkDimension, cb, none, none⟩) := by
  constructor
  · intro h
    unfold urCommandBufferAppendKernelLaunchExp
    rw [if_pos h]
  · intro hctx hwd
    unfold urCommandBufferAppendKernelLaunchExp
    rw [if_neg (by simpa using hctx)]
    rcases hwd with h0 | h4
    · rw [if_pos (by omega)]
    · rw [if_neg (by omega), if_pos (by omega)]

/-- Claim C10 witness: context mismatch and work dimension 0, each at a
concrete input. -/
theorem kernelLaunch_precondition_errors_witness :
    urCommandBufferAppendKernelLaunchExp ⟨0, false, false, [], [], []⟩ ⟨1, []⟩
      1 (0, 0, 0) (64, 0, 0) none 0 none .success =
      ⟨.errorInvalidKernel, ⟨0, false, false, [], [], []⟩, none, none⟩ ∧
    urCommandBufferAppendKernelLaunchExp ⟨0, false, false, [], [], []⟩ ⟨0, []⟩
      0 (0, 0, 0) (64, 0, 0) none 0 none .success =
      ⟨.errorInvalidWorkDimension, ⟨0, false, false, [], [], []⟩, none, none⟩ :=
  ⟨(kernelLaunch_precondition_errors ⟨0, false, false, [], [], []⟩ ⟨1, []⟩
      1 (0, 0, 0) (64, 0, 0) none 0 none .success).1 (by decide),
   (kernelLaunch_precondition_errors ⟨0, false, false, [], [], []⟩ ⟨0, []⟩
      0 (0, 0, 0) (64, 0, 0) none 0 none .success).2 rfl (Or.inl rfl)⟩

/-- Claim C6: `urCommandBufferUpdateKernelLaunchExp` fails with the
invalid-operation error on a command whose buffer has never been finalized,
and likewise on a command whose buffer was finalized but not created
updatable; in both cases the command handle's cached geometry and the
kernel's argument store are returned exactly as they were. -/
theorem update_requires_finalized_updatable (cb : CommandBuffer)
    (cmd : CommandHandle) (kernel : Kernel) (desc : UpdateKernelLaunchDesc)
    (skpResult : UrResult) :
    (cb.finalized = false →
      urCommandBufferUpdateKernelLaunchExp cb cmd kernel desc skpResult =
        (.errorInvalidOperation, cmd, kernel)) ∧
    (cb.finalized = true → cb.isUpdatable = false →
      urCommandBufferUpdateKernelLaunchExp cb cmd kernel desc skpResult =
        (.errorInvalidOperation, cmd, kernel)) := by
  constructor
  · intro h
    unfold urCommandBufferUpdateKernelLaunchExp
    rw [if_pos (by simp [h])]
  · intro hfin hupd
    unfold urCommandBufferUpdateKernelLaunchExp
    rw [if_neg (by simp [hfin]), if_pos (by simp [hupd])]

/-- Claim C6 witness: both failure cases at concrete inputs, showing the
untouched command handle and kernel. -/
theorem update_requires_finalized_updatable_witness :
    urCommandBufferUpdateKernelLaunchExp ⟨0, true, false, [], [], []⟩
      ⟨1, (1, 2, 3), (4, 5, 6), (7, 8, 9)⟩ ⟨0, []⟩
      ⟨[], [], [], 2, some (9, 9, 9), none, none⟩ .success =
      (.errorInvalidOperation, ⟨1, (1, 2, 3), (4, 5, 6), (7, 8, 9)⟩, ⟨0, []⟩) ∧
    urCommandBufferUpdateKernelLaunchExp ⟨0, false, true, [], [], []⟩
      ⟨1, (1, 2, 3), (4, 5, 6), (7, 8, 9)⟩ ⟨0, []⟩
      ⟨[], [], [], 2, some (9, 9, 9), none, none⟩ .success =
      (.errorInvalidOperation, ⟨1, (1, 2, 3), (4, 5, 6), (7, 8, 9)⟩, ⟨0, []⟩) :=
  ⟨(update_requires_finalized_updatable ⟨0, true, false, [], [], []⟩
      ⟨1, (1, 2, 3), (4, 5, 6), (7, 8, 9)⟩ ⟨0, []⟩
      ⟨[], [], [], 2, some (9, 9, 9), none, none⟩ .success).1 rfl,
   (update_requires_finalized_updatable ⟨0, false, true, [], [], []⟩
      ⟨1, (1, 2, 3), (4, 5, 6), (7, 8, 9)⟩ ⟨0, []⟩
      ⟨[], [], [], 2, some (9, 9, 9), none, none⟩ .success).2 rfl rfl⟩

/-- Claim C1: for every append operation, if the sync-point wait list
contains an id unknown to the buffer's registry (and the operation's other
parameter validations pass), the operation fails with the invalid-value
error and performs no graph mutation: the returned buffer — its node list,
sync-point registry and command-handle list — is exactly the input buffer,
and no sync point or command handle is written. -/
theorem append_unknown_syncpoint_rejected (cb : CommandBuffer) (num : Nat)
    (pWaitList : Option (List Nat)) (i : Nat)
    (hmem : i ∈ readWaitList num pWaitList)
    (hun : cb.syncPoints.lookup i = none) :
    (∀ dst src size, urCommandBufferAppendUSMMemcpyExp cb dst src size num
      pWaitList = ⟨.errorInvalidValue, cb, none⟩) ∧
    (∀ srcSize dstSize srcOffset dstOffset size,
      size + dstOffset ≤ dstSize → size + srcOffset ≤ srcSize →
      urCommandBufferAppendMemBufferCopyExp cb srcSize dstSize srcOffset
        dstOffset size num pWaitList = ⟨.errorInvalidValue, cb, none⟩) ∧
    (∀ srcSize dstSize srcOrigin dstOrigin region,
      urCommandBufferAppendMemBufferCopyRectExp cb srcSize dstSize srcOrigin
        dstOrigin region num pWaitList = ⟨.errorInvalidValue, cb, none⟩) ∧
    (∀ offset size src, urCommandBufferAppendMemBufferWriteExp cb offset size
      src num pWaitList = ⟨.errorInvalidValue, cb, none⟩) ∧
    (∀ offset size dst, urCommandBufferAppendMemBufferReadExp cb offset size
      dst num pWaitList = ⟨.errorInvalidValue, cb, none⟩) ∧
    (urCommandBufferAppendMemBufferWriteRectExp cb num pWaitList =
      ⟨.errorInvalidValue, cb, none⟩) ∧
    (urCommandBufferAppendMemBufferReadRectExp cb num pWaitList =
      ⟨.errorInvalidValue, cb, none⟩) ∧
    (urCommandBufferAppendUSMPrefetchExp cb num pWaitList =
      ⟨.errorInvalidValue, cb, none⟩) ∧
    (urCommandBufferAppendUSMAdviseExp cb num pWaitList =
      ⟨.errorInvalidValue, cb, none⟩) ∧
    (∀ pat patternSize offset size,
      memBufferFillArgsCheck offset size patternSize →
      patternSizeIsValid patternSize →
      urCommandBufferAppendMemBufferFillExp cb (some pat) patternSize offset
        size num pWaitList = ⟨.errorInvalidValue, cb, none⟩) ∧
    (∀ ptr pat patternSize size, patternSizeIsValid patternSize →
      urCommandBufferAppendUSMFillExp cb ptr (some pat) patternSize size num
        pWaitList = ⟨.errorInvalidValue, cb, none⟩) ∧
    (∀ kernel workDim gwo gws lws skpResult, cb.ctx = kernel.ctx →
      0 < workDim → workDim < 4 →
      urCommandBufferAppendKernelLaunchExp cb kernel workDim gwo gws lws num
        pWaitList skpResult = ⟨.errorInvalidValue, cb, none, none⟩) := by
  have hwl : waitListConsistent num pWaitList := by
    have := readWaitList_mem_not_none num pWaitList i hmem
    unfold waitListConsistent
    tauto
  have herr := getNodesFromSyncPoints_error_of_unknown cb
    (readWaitList num pWaitList) i hmem hun
  refine ⟨?_, ?_, ?_, ?_, ?_, ?_, ?_, ?_, ?_, ?_, ?_, ?_⟩
  · intro dst src size
    unfold urCommandBufferAppendUSMMemcpyExp
    rw [if_neg (by simpa using hwl), herr]
  · intro srcSize dstSize srcOffset dstOffset size hdst hsrc
    unfold urCommandBufferAppendMemBufferCopyExp
    rw [if_neg (by simpa using hwl),
      if_neg (by simp only [not_not]
                 exact le_trans (Nat.mod_le _ _) hdst),
      if_neg (by simp only [not_not]
                 exact le_trans (Nat.mod_le _ _) hsrc), herr]
  · intro srcSize dstSize srcOrigin dstOrigin region
    unfold urCommandBufferAppendMemBufferCopyRectExp
    rw [if_neg (by simpa using hwl), herr]
  · intro offset size src
    unfold urCommandBufferAppendMemBufferWriteExp
    rw [if_neg (by simpa using hwl), herr]
  · intro offset size dst
    unfold urCommandBufferAppendMemBufferReadExp
    rw [if_neg (by simpa using hwl), herr]
  · unfold urCommandBufferAppendMemBufferWriteRectExp
    rw [if_neg (by simpa using hwl), herr]
  · unfold urCommandBufferAppendMemBufferReadRectExp
    rw [if_neg (by simpa using hwl), herr]
  · unfold urCommandBufferAppendUSMPrefetchExp
    rw [if_neg (by simpa using hwl), herr]
  · unfold urCommandBufferAppendUSMAdviseExp
    rw [if_neg (by simpa using hwl), herr]
  · intro pat patternSize offset size hargs hps
    unfold urCommandBufferAppendMemBufferFillExp
    rw [if_neg (by push_neg; exact ⟨hargs, by simp, hps⟩),
      if_neg (by simpa using hwl)]
    unfold enqueueCommandBufferFillHelper
    rw [herr]
  · intro ptr pat patternSize size hps
    unfold urCommandBufferAppendUSMFillExp
    rw [if_neg (by simpa using hwl), if_neg (by push_neg; exact ⟨by simp, hps⟩)]
    unfold enqueueCommandBufferFillHelper
    rw [herr]
  · intro kernel workDim gwo gws lws skpResult hctx h0 h4
    unfold urCommandBufferAppendKernelLaunchExp
    rw [if_neg (by simpa using hctx), if_neg (by omega), if_neg (by omega),
      if_neg (by simpa using hwl), herr]

/-- Claim C1 witness: appending a USM memcpy to a fresh buffer with a wait
list naming the unissued sync point 0 fails with the invalid-value error and
leaves the buffer untouched. -/
theorem append_unknown_syncpoint_rejected_witness :
    urCommandBufferAppendUSMMemcpyExp ⟨0, false, false, [], [], []⟩ 16 32 8 1
      (some [0]) =
      ⟨.errorInvalidValue, ⟨0, false, false, [], [], []⟩, none⟩ :=
  (append_unknown_syncpoint_rejected ⟨0, false, false, [], [], []⟩ 1
    (some [0]) 0 (by decide) rfl).1 16 32 8

/-- Claim C3 counterexample: a kernel launch whose global work size is zero
along its second dimension but not its first (`workDim = 2`,
`pGlobalWorkSize = {1, 0}`) does not take the no-op path, because the source
only tests `*pGlobalWorkSize == 0`, i.e. the first element.  When the
external `setKernelParams` succeeds, a kernel node (not an empty node) is
added and a command handle is produced, contradicting the claim's "adds
exactly one no-op node" and "produces no command handle"; when it fails,
nothing is appended at all, contradicting "advances the sync-point registry
by exactly one entry". -/
theorem kernelLaunch_zero_any_dim_counterexample :
    (urCommandBufferAppendKernelLaunchExp ⟨0, false, false, [], [], []⟩ ⟨0, []⟩
      2 (0, 0, 0) (1, 0, 0) none 0 none .success).command =
      some (mkCommandHandle 2 (0, 0, 0) (1, 0, 0) none) ∧
    (urCommandBufferAppendKernelLaunchExp ⟨0, false, false, [], [], []⟩ ⟨0, []⟩
      2 (0, 0, 0) (1, 0, 0) none 0 none .success).buffer.nodes =
      [⟨.kernelNode, []⟩] ∧
    urCommandBufferAppendKernelLaunchExp ⟨0, false, false, [], [], []⟩ ⟨0, []⟩
      2 (0, 0, 0) (1, 0, 0) none 0 none .errorUnknown =
      ⟨.errorUnknown, ⟨0, false, false, [], [], []⟩, none, none⟩ := by
  decide

/-- Claim C3 as amended: for every kernel-launch append whose global work
size is 0 along the FIRST dimension (the only one the source tests), the
operation adds exactly one empty (no-op) graph node carrying the resolved
wait-list dependency edges, advances the sync-point registry by exactly one
entry naming that node, and produces no command handle (the command-handle
list is unchanged). -/
theorem kernelLaunch_zero_first_dim_noop (cb : CommandBuffer) (kernel : Kernel)
    (workDim : Nat) (gwo gws : Nat × Nat × Nat) (lws : Option (Nat × Nat × Nat))
    (num : Nat) (pWaitList : Option (List Nat)) (skpResult : UrResult)
    (deps : List Nat)
    (hctx : cb.ctx = kernel.ctx) (h0 : 0 < workDim) (h4 : workDim < 4)
    (hwl : waitListConsistent num pWaitList)
    (hres : getNodesFromSyncPoints cb (readWaitList num pWaitList) = .ok deps)
    (hz : gws.1 = 0) :
    urCommandBufferAppendKernelLaunchExp cb kernel workDim gwo gws lws num
      pWaitList skpResult =
      ⟨.success,
        { cb with nodes := cb.nodes ++ [⟨.empty, deps⟩],
                  syncPoints := cb.syncPoints ++
                    [(cb.syncPoints.length, cb.nodes.length)] },
        some cb.syncPoints.length, none⟩ := by
  unfold urCommandBufferAppendKernelLaunchExp
  rw [if_neg (by simpa using hctx), if_neg (by omega), if_neg (by omega),
    if_neg (by simpa using hwl), hres]
  simp only [hz, if_pos]
  rfl

/-- Claim C3 witness: the amended theorem applied to a one-dimensional launch
of global size zero on a fresh buffer. -/
theorem kernelLaunch_zero_first_dim_noop_witness :
    urCommandBufferAppendKernelLaunchExp ⟨0, false, false, [], [], []⟩ ⟨0, []⟩
      1 (0, 0, 0) (0, 0, 0) none 0 none .success =
      ⟨.success, ⟨0, false, false, [⟨.empty, []⟩], [(0, 0)], []⟩, some 0, none⟩ :=
  kernelLaunch_zero_first_dim_noop ⟨0, false, false, [], [], []⟩ ⟨0, []⟩
    1 (0, 0, 0) (0, 0, 0) none 0 none .success [] rfl (by decide) (by decide)
    (by decide) rfl rfl

/-- Claim C8 counterexample: the rectangular copy variant performs no bounds
check — copying a 1000-wide region between two buffers of allocated size 1
succeeds and creates a graph node instead of failing with the invalid-size
error before any node is created. -/
theorem memBufferCopyRect_no_bounds_check_counterexample :
    urCommandBufferAppendMemBufferCopyRectExp ⟨0, false, false, [], [], []⟩
      1 1 (0, 0, 0) (0, 0, 0) (1000, 1, 1) 0 none =
      ⟨.success, ⟨0, false, false, [⟨.memcpy3D, []⟩], [(0, 0)], []⟩, some 0⟩ := by
  decide

/-- Claim C8 as amended: the linear copy variant
`urCommandBufferAppendMemBufferCopyExp` checks, before creating any graph
node, that the wrapping `size_t` sum `size + dstOffset` does not exceed the
destination buffer's allocated size and that the wrapping sum
`size + srcOffset` does not exceed the source buffer's allocated size,
failing with the invalid-size error and leaving the buffer untouched on
violation; because the sums wrap modulo `2^64`, an overflowing sum can wrap
around and pass the check, in which case a copy node is created; and the
rectangular variant `urCommandBufferAppendMemBufferCopyRectExp` performs no
bounds check at all: whatever the origins, region and allocated sizes, it
proceeds to create a copy node once the wait list resolves. -/
theorem memBufferCopy_bounds_check (cb : CommandBuffer) (num : Nat)
    (pWaitList : Option (List Nat)) :
    (∀ srcSize dstSize srcOffset dstOffset size,
      waitListConsistent num pWaitList →
      dstSize < sizeTWrap (size + dstOffset) ∨
        srcSize < sizeTWrap (size + srcOffset) →
      urCommandBufferAppendMemBufferCopyExp cb srcSize dstSize srcOffset
        dstOffset size num pWaitList = ⟨.errorInvalidSize, cb, none⟩) ∧
    (∀ srcSize dstSize srcOffset dstOffset size deps,
      waitListConsistent num pWaitList →
      sizeTWrap (size + dstOffset) ≤ dstSize →
      sizeTWrap (size + srcOffset) ≤ srcSize →
      getNodesFromSyncPoints cb (readWaitList num pWaitList) = .ok deps →
      urCommandBufferAppendMemBufferCopyExp cb srcSize dstSize srcOffset
        dstOffset size num pWaitList =
        ⟨.success,
          { cb with nodes := cb.nodes ++
              [⟨.memcpy1D dstOffset srcOffset size, deps⟩],
                    syncPoints := cb.syncPoints ++
                      [(cb.syncPoints.length, cb.nodes.length)] },
          some cb.syncPoints.length⟩) ∧
    (∀ srcSize dstSize srcOrigin dstOrigin region deps,
      waitListConsistent num pWaitList →
      getNodesFromSyncPoints cb (readWaitList num pWaitList) = .ok deps →
      urCommandBufferAppendMemBufferCopyRectExp cb srcSize dstSize srcOrigin
        dstOrigin region num pWaitList =
        ⟨.success,
          { cb with nodes := cb.nodes ++ [⟨.memcpy3D, deps⟩],
                    syncPoints := cb.syncPoints ++
                      [(cb.syncPoints.length, cb.nodes.length)] },
          some cb.syncPoints.length⟩) := by
  refine ⟨?_, ?_, ?_⟩
  · intro srcSize dstSize srcOffset dstOffset size hwl hviol
    unfold urCommandBufferAppendMemBufferCopyExp
    rw [if_neg (by simpa using hwl)]
    rcases hviol with hdst | hsrc
    · rw [if_pos (by omega)]
    · by_cases hd : sizeTWrap (size + dstOffset) ≤ dstSize
      · rw [if_neg (by simpa using hd), if_pos (by omega)]
      · rw [if_pos (by simpa using hd)]
  · intro srcSize dstSize srcOffset dstOffset size deps hwl hdst hsrc hres
    unfold urCommandBufferAppendMemBufferCopyExp
    rw [if_neg (by simpa using hwl), if_neg (by simpa using hdst),
      if_neg (by simpa using hsrc), hres]
    rfl
  · intro srcSize dstSize srcOrigin dstOrigin region deps hwl hres
    unfold urCommandBufferAppendMemBufferCopyRectExp
    rw [if_neg (by simpa using hwl), hres]
    rfl

/-- Claim C8 witness: the amended theorem applied concretely — a 1000-byte
linear copy into a 1-byte destination is rejected; a linear copy whose
`size_t` sum overflows (size `2^64 - 1`, destination and source offset 2,
allocated sizes 1) wraps to 1, passes the check and creates a node; and a
rectangular copy of absurd magnitude succeeds on a fresh buffer. -/
theorem memBufferCopy_bounds_check_witness :
    urCommandBufferAppendMemBufferCopyExp ⟨0, false, false, [], [], []⟩
      1 1 0 0 1000 0 none =
      ⟨.errorInvalidSize, ⟨0, false, false, [], [], []⟩, none⟩ ∧
    urCommandBufferAppendMemBufferCopyExp ⟨0, false, false, [], [], []⟩
      1 1 2 2 (2 ^ 64 - 1) 0 none =
      ⟨.success,
        ⟨0, false, false, [⟨.memcpy1D 2 2 (2 ^ 64 - 1), []⟩], [(0, 0)], []⟩,
        some 0⟩ ∧
    urCommandBufferAppendMemBufferCopyRectExp ⟨0, false, false, [], [], []⟩
      1 1 (0, 0, 0) (0, 0, 0) (1000, 1, 1) 0 none =
      ⟨.success, ⟨0, false, false, [⟨.memcpy3D, []⟩], [(0, 0)], []⟩, some 0⟩ :=
  ⟨(memBufferCopy_bounds_check ⟨0, false, false, [], [], []⟩ 0 none).1
      1 1 0 0 1000 (by decide) (Or.inl (by decide)),
   (memBufferCopy_bounds_check ⟨0, false, false, [], [], []⟩ 0 none).2.1
      1 1 2 2 (2 ^ 64 - 1) [] (by decide) (by decide) (by decide) rfl,
   (memBufferCopy_bounds_check ⟨0, false, false, [], [], []⟩ 0 none).2.2
      1 1 (0, 0, 0) (0, 0, 0) (1000, 1, 1) [] (by decide) rfl⟩

/-- Claim C5 failing inputs: the source combines the two multiple checks
with `||` (`ArgsAreMultiplesOfPatternSize = (offset % patternSize == 0) ||
(size % patternSize == 0)`), so a buffer fill whose size is not a multiple
of the pattern width (offset 0, size 5, width 2) — and one whose offset is
not a multiple (offset 1, size 4, width 2) — pass validation and create a
memset node; and `urCommandBufferAppendUSMFillExp` has no offset/size
multiple check at all, so a USM fill of size 5 with width 2 likewise
succeeds.  The claim (and the variable's own name) requires all of these to
be rejected with the invalid-size error before any node is created. -/
theorem fill_misaligned_accepted :
    urCommandBufferAppendMemBufferFillExp ⟨0, false, false, [], [], []⟩
      (some [171, 205]) 2 0 5 0 none =
      ⟨.success,
        ⟨0, false, false, [⟨.memset ⟨0, 2, 2, 2, 52651, 1⟩, []⟩], [(0, 0)], []⟩,
        some 0⟩ ∧
    urCommandBufferAppendMemBufferFillExp ⟨0, false, false, [], [], []⟩
      (some [171, 205]) 2 1 4 0 none =
      ⟨.success,
        ⟨0, false, false, [⟨.memset ⟨1, 2, 2, 2, 52651, 1⟩, []⟩], [(0, 0)], []⟩,
        some 0⟩ ∧
    urCommandBufferAppendUSMFillExp ⟨0, false, false, [], [], []⟩ 7
      (some [171, 205]) 2 5 0 none =
      ⟨.success,
        ⟨0, false, false, [⟨.memset ⟨7, 2, 2, 2, 52651, 1⟩, []⟩], [(0, 0)], []⟩,
        some 0⟩ := by
  decide

/-- Characterization of `fillLoop`: starting at `step` with `k` steps left,
it appends one 1-byte memset node per remaining step, each depending only on
the immediately previous node, registers each under the next dense sync
point, and reports the last registered sync point (or the incoming one when
no step remains). -/
lemma fillLoop_spec (dst : Nat) (pat : List Nat) (size numberOfSteps : Nat) :
    ∀ k step prevNode lastSp cb, numberOfSteps = step + k →
    fillLoop dst pat size numberOfSteps step prevNode lastSp cb =
      (.success,
       { cb with
         nodes := cb.nodes ++ (List.range k).map (fun j =>
           ⟨.memset ⟨dst + step + j, 1, size / numberOfSteps, numberOfSteps,
              pat.getD (step + j) 0, 1⟩,
            [if j = 0 then prevNode else cb.nodes.length + (j - 1)]⟩),
         syncPoints := cb.syncPoints ++ (List.range k).map (fun j =>
           (cb.syncPoints.length + j, cb.nodes.length + j)) },
       if k = 0 then some lastSp else some (cb.syncPoints.length + k - 1)) := by
  intro k
  induction k with
  | zero =>
    intro step prevNode lastSp cb hN
    rw [fillLoop]
    rw [dif_neg (by omega)]
    simp
  | succ k ih =>
    intro step prevNode lastSp cb hN
    rw [fillLoop]
    rw [dif_pos (by omega)]
    simp only [CommandBuffer.addGraphNode, CommandBuffer.addSyncPoint]
    rw [ih (step + 1) cb.nodes.length cb.syncPoints.length _ (by omega)]
    simp only [Prod.mk.injEq, CommandBuffer.mk.injEq, List.length_append,
      List.length_singleton, List.append_assoc, List.singleton_append,
      List.range_succ_eq_map, List.map_cons, List.map_map, true_and, and_true]
    refine ⟨⟨?_, ?_⟩, ?_⟩
    · refine congrArg _ (List.cons_eq_cons.mpr ⟨?_, List.map_congr_left ?_⟩)
      · simp
      · intro j hj
        simp only [Function.comp_apply]
        have h1 : dst + (step + 1) + j = dst + step + (j + 1) := by omega
        have h2 : step + 1 + j = step + (j + 1) := by omega
        have h3 : (if j = 0 then cb.nodes.length
            else cb.nodes.length + 1 + (j - 1)) = cb.nodes.length + j := by
          by_cases hj0 : j = 0
          · subst hj0
            simp
          · rw [if_neg hj0]
            omega
        have h4 : (if j.succ = 0 then prevNode
            else cb.nodes.length + (j.succ - 1)) = cb.nodes.length + j := by
          rw [if_neg (Nat.succ_ne_zero j)]
          simp
        rw [h1, h2, h3, h4]
    · refine congrArg _ (List.cons_eq_cons.mpr ⟨?_, List.map_congr_left ?_⟩)
      · refine congrArg₂ _ ?_ ?_ <;> omega
      · intro j hj
        simp only [Function.comp_apply, Prod.mk.injEq]
        omega
    · by_cases hk : k = 0
      · subst hk
        simp
      · rw [if_neg hk, if_neg (Nat.succ_ne_zero k)]
        refine congrArg _ ?_
        omega

/-- Claim C4: for every fill whose pattern width exceeds 4 (a power of two,
with the size a multiple of the width), the fill helper appends exactly one
4-byte-granularity memset node covering the region (value = the first four
pattern bytes, height = size/4, depending on the resolved wait-list nodes)
followed by one 1-byte-granularity memset node per remaining pattern byte
(steps 4 through patternSize-1, writing byte `pat[j]` at `dst + j` with
pitch patternSize and height size/patternSize), each such node depending
only on the immediately previous node; every node is registered under the
next dense sync point and the out-parameter receives the sync point of the
final node of the chain. -/
theorem fill_wide_pattern_decomposition (cb : CommandBuffer) (dst : Nat)
    (pat : List Nat) (patternSize size : Nat) (num : Nat)
    (pWaitList : Option (List Nat)) (deps : List Nat)
    (hP : 4 < patternSize)
    (hpow : patternSizeIsValid patternSize)
    (hmul : size % patternSize = 0)
    (hres : getNodesFromSyncPoints cb (readWaitList num pWaitList) = .ok deps) :
    enqueueCommandBufferFillHelper cb dst pat patternSize size num pWaitList =
      (.success,
       { cb with
         nodes := cb.nodes ++
           ⟨.memset ⟨dst, 4, size / 4, 4, patternU32 pat, 1⟩, deps⟩ ::
           (List.range (patternSize - 4)).map (fun j =>
             ⟨.memset ⟨dst + 4 + j, 1, size / patternSize, patternSize,
                pat.getD (4 + j) 0, 1⟩,
              [cb.nodes.length + j]⟩),
         syncPoints := cb.syncPoints ++
           (List.range (patternSize - 3)).map (fun j =>
             (cb.syncPoints.length + j, cb.nodes.length + j)) },
       some (cb.syncPoints.length + (patternSize - 4))) := by
  unfold enqueueCommandBufferFillHelper
  simp only [hres]
  rw [if_neg (show ¬ (patternSize = 1 ∨ patternSize = 2 ∨ patternSize = 4)
    by omega)]
  simp only [CommandBuffer.addGraphNode, CommandBuffer.addSyncPoint]
  rw [fillLoop_spec dst pat size patternSize (patternSize - 4) 4
    cb.nodes.length cb.syncPoints.length _ (by omega)]
  have hP3 : patternSize - 3 = (patternSize - 4) + 1 := by omega
  rw [hP3]
  simp only [Prod.mk.injEq, CommandBuffer.mk.injEq, List.length_append,
    List.length_singleton, List.append_assoc, List.singleton_append,
    List.range_succ_eq_map, List.map_cons, List.map_map, true_and, and_true]
  refine ⟨⟨?_, ?_⟩, ?_⟩
  · refine congrArg _ (List.cons_eq_cons.mpr ⟨rfl, List.map_congr_left ?_⟩)
    intro j hj
    have h3 : (if j = 0 then cb.nodes.length
        else cb.nodes.length + 1 + (j - 1)) = cb.nodes.length + j := by
      by_cases hj0 : j = 0
      · subst hj0
        simp
      · rw [if_neg hj0]
        omega
    rw [h3]
  · refine congrArg _ (List.cons_eq_cons.mpr ⟨?_, List.map_congr_left ?_⟩)
    · refine congrArg₂ _ ?_ ?_ <;> omega
    · intro j hj
      simp only [Function.comp_apply, Prod.mk.injEq]
      omega
  · rw [if_neg (show ¬ (patternSize - 4 = 0) by omega)]
    refine congrArg _ ?_
    omega

/-- Claim C4 witness: an 8-byte pattern filling 16 bytes on a fresh buffer
decomposes into one 4-byte node and four chained 1-byte nodes. -/
theorem fill_wide_pattern_decomposition_witness :
    enqueueCommandBufferFillHelper ⟨0, false, false, [], [], []⟩ 0
      [1, 2, 3, 4, 5, 6, 7, 8] 8 16 0 none =
      (.success,
       ⟨0, false, false,
        [⟨.memset ⟨0, 4, 4, 4, 67305985, 1⟩, []⟩,
         ⟨.memset ⟨4, 1, 2, 8, 5, 1⟩, [0]⟩,
         ⟨.memset ⟨5, 1, 2, 8, 6, 1⟩, [1]⟩,
         ⟨.memset ⟨6, 1, 2, 8, 7, 1⟩, [2]⟩,
         ⟨.memset ⟨7, 1, 2, 8, 8, 1⟩, [3]⟩],
        [(0, 0), (1, 1), (2, 2), (3, 3), (4, 4)], []⟩,
       some 4) := by
  have h := fill_wide_pattern_decomposition ⟨0, false, false, [], [], []⟩ 0
    [1, 2, 3, 4, 5, 6, 7, 8] 8 16 0 none [] (by omega) (by decide) (by decide)
    rfl
  rw [h]
  decide

/-- Claim C7: after a successful `urCommandBufferUpdateKernelLaunchExp`,
re-reading the command handle's cached geometry returns exactly the newly
supplied values — the new work dimension when one was supplied, and for each
supplied coordinate the first `workDim` elements of the supplied value
(zero-filled above `workDim`, as the cached arrays always are) — while every
omitted field (`newWorkDim = 0` or a null pointer) retains its previous
cached value unchanged. -/
theorem update_roundtrip_geometry (cb : CommandBuffer) (cmd : CommandHandle)
    (kernel : Kernel) (desc : UpdateKernelLaunchDesc)
    (hfin : cb.finalized = true) (hupd : cb.isUpdatable = true)
    (hwd : desc.newWorkDim = 0 ∨ desc.newWorkDim < 4) :
    (urCommandBufferUpdateKernelLaunchExp cb cmd kernel desc .success).1 =
      .success ∧
    (urCommandBufferUpdateKernelLaunchExp cb cmd kernel desc
        .success).2.1.workDim =
      (if desc.newWorkDim = 0 then cmd.workDim else desc.newWorkDim) ∧
    (∀ o, desc.pNewGlobalWorkOffset = some o →
      (urCommandBufferUpdateKernelLaunchExp cb cmd kernel desc
          .success).2.1.globalWorkOffset =
        copyGeom (urCommandBufferUpdateKernelLaunchExp cb cmd kernel desc
          .success).2.1.workDim o) ∧
    (desc.pNewGlobalWorkOffset = none →
      (urCommandBufferUpdateKernelLaunchExp cb cmd kernel desc
          .success).2.1.globalWorkOffset = cmd.globalWorkOffset) ∧
    (∀ s, desc.pNewGlobalWorkSize = some s →
      (urCommandBufferUpdateKernelLaunchExp cb cmd kernel desc
          .success).2.1.globalWorkSize =
        copyGeom (urCommandBufferUpdateKernelLaunchExp cb cmd kernel desc
          .success).2.1.workDim s) ∧
    (desc.pNewGlobalWorkSize = none →
      (urCommandBufferUpdateKernelLaunchExp cb cmd kernel desc
          .success).2.1.globalWorkSize = cmd.globalWorkSize) ∧
    (∀ l, desc.pNewLocalWorkSize = some l →
      (urCommandBufferUpdateKernelLaunchExp cb cmd kernel desc
          .success).2.1.localWorkSize =
        copyGeom (urCommandBufferUpdateKernelLaunchExp cb cmd kernel desc
          .success).2.1.workDim l) ∧
    (desc.pNewLocalWorkSize = none →
      (urCommandBufferUpdateKernelLaunchExp cb cmd kernel desc
          .success).2.1.localWorkSize = cmd.localWorkSize) := by
  rcases desc with ⟨pa, ma, va, nwd, gwoOpt, gwsOpt, lwsOpt⟩
  simp only at hwd
  have hno : ¬ (nwd ≠ 0 ∧ ¬ (nwd < 4)) := by omega
  have h4 : ¬ 4 ≤ nwd := by omega
  rcases gwoOpt with _ | o <;> rcases gwsOpt with _ | s <;>
    rcases lwsOpt with _ | l <;> by_cases h0 : nwd = 0 <;>
    simp [urCommandBufferUpdateKernelLaunchExp, hfin, hupd, hno, h4, h0,
      CommandHandle.setGlobalOffset, CommandHandle.setGlobalSize,
      CommandHandle.setLocalSize]

/-- Claim C7 witness: the theorem applied at a concrete update that supplies
a new work dimension and global size but omits the offset and local size. -/
theorem update_roundtrip_geometry_witness :
    (urCommandBufferUpdateKernelLaunchExp ⟨0, true, true, [], [], []⟩
        ⟨1, (1, 2, 3), (4, 5, 6), (7, 8, 9)⟩ ⟨0, []⟩
        ⟨[], [], [], 2, none, some (128, 64, 5), none⟩ .success).1 =
      .success ∧
    (urCommandBufferUpdateKernelLaunchExp ⟨0, true, true, [], [], []⟩
        ⟨1, (1, 2, 3), (4, 5, 6), (7, 8, 9)⟩ ⟨0, []⟩
        ⟨[], [], [], 2, none, some (128, 64, 5), none⟩ .success).2.1.workDim =
      2 ∧
    (urCommandBufferUpdateKernelLaunchExp ⟨0, true, true, [], [], []⟩
        ⟨1, (1, 2, 3), (4, 5, 6), (7, 8, 9)⟩ ⟨0, []⟩
        ⟨[], [], [], 2, none, some (128, 64, 5), none⟩
        .success).2.1.globalWorkSize = (128, 64, 0) ∧
    (urCommandBufferUpdateKernelLaunchExp ⟨0, true, true, [], [], []⟩
        ⟨1, (1, 2, 3), (4, 5, 6), (7, 8, 9)⟩ ⟨0, []⟩
        ⟨[], [], [], 2, none, some (128, 64, 5), none⟩
        .success).2.1.globalWorkOffset = (1, 2, 3) := by
  have h := update_roundtrip_geometry ⟨0, true, true, [], [], []⟩
    ⟨1, (1, 2, 3), (4, 5, 6), (7, 8, 9)⟩ ⟨0, []⟩
    ⟨[], [], [], 2, none, some (128, 64, 5), none⟩ rfl rfl (by decide)
  refine ⟨h.1, ?_, ?_, ?_⟩
  · rw [h.2.1]
    rfl
  · rw [h.2.2.2.2.1 (128, 64, 5) rfl, h.2.1]
    rfl
  · exact h.2.2.2.1 rfl

namespace RC

/-- The buffer's internal release never touches the external count. -/
lemma commandBufferReleaseInternal_bufExternal (w : BufWorld) :
    (commandBufferReleaseInternal w).bufExternal = w.bufExternal := by
  unfold commandBufferReleaseInternal
  split <;> rfl

/-- The buffer's internal release never touches the handle list. -/
lemma commandBufferReleaseInternal_handles (w : BufWorld) :
    (commandBufferReleaseInternal w).handles = w.handles := by
  unfold commandBufferReleaseInternal
  split <;> rfl

/-- Effect of the force pass on one live handle whose internal count is
exactly one: it is deleted. -/
lemma stepHandle_dying (h : HandleRC) (ha : h.alive = true)
    (hi : h.refInternal = 1) :
    stepHandle h = { h with refInternal := 0, alive := false } := by
  unfold stepHandle
  rw [if_neg (show ¬ h.alive = false by simp [ha]),
    if_neg (show ¬ h.refInternal - 1 ≠ 0 by omega)]

/-- Effect of the force pass on one live handle whose internal count exceeds
one: the count drops by one and the handle survives. -/
lemma stepHandle_surviving (h : HandleRC) (ha : h.alive = true)
    (hpos : 1 ≤ h.refInternal) (hi : h.refInternal ≠ 1) :
    stepHandle h = { h with refInternal := h.refInternal - 1 } := by
  unfold stepHandle
  rw [if_neg (show ¬ h.alive = false by simp [ha]),
    if_pos (show h.refInternal - 1 ≠ 0 by omega)]

/-- The force pass leaves an already-deleted handle alone. -/
lemma stepHandle_dead (h : HandleRC) (ha : h.alive = false) :
    stepHandle h = h := by
  unfold stepHandle
  rw [if_pos ha]

/-- Splitting the live count at a live head. -/
lemma aliveCount_cons_alive (h : HandleRC) (t : List HandleRC)
    (ha : h.alive = true) : aliveCount (h :: t) = aliveCount t + 1 := by
  unfold aliveCount
  rw [List.filter_cons, if_pos ha]
  rfl

/-- Splitting the live count at a deleted head. -/
lemma aliveCount_cons_dead (h : HandleRC) (t : List HandleRC)
    (ha : h.alive = false) : aliveCount (h :: t) = aliveCount t := by
  unfold aliveCount
  rw [List.filter_cons, if_neg (show ¬ h.alive = true by simp [ha])]

/-- Splitting the dying count at a live head with internal count one. -/
lemma dyingCount_cons_dying (h : HandleRC) (t : List HandleRC)
    (ha : h.alive = true) (hi : h.refInternal = 1) :
    dyingCount (h :: t) = dyingCount t + 1 := by
  unfold dyingCount
  rw [List.filter_cons,
    if_pos (show (h.alive && h.refInternal == 1) = true by rw [ha, hi]; decide)]
  rfl

/-- Splitting the dying count at a head that survives the pass. -/
lemma dyingCount_cons_surviving (h : HandleRC) (t : List HandleRC)
    (hi : h.alive = false ∨ h.refInternal ≠ 1) :
    dyingCount (h :: t) = dyingCount t := by
  unfold dyingCount
  rw [List.filter_cons,
    if_neg (show ¬ (h.alive && h.refInternal == 1) = true by
      rcases hi with ha | hi
      · simp [ha]
      · simp [hi])]

/-- Every handle deleted by the force pass was live. -/
lemma dyingCount_le_aliveCount (hs : List HandleRC) :
    dyingCount hs ≤ aliveCount hs := by
  induction hs with
  | nil => simp [dyingCount, aliveCount]
  | cons h t ih =>
    by_cases ha : h.alive = true
    · rw [aliveCount_cons_alive h t ha]
      by_cases hi : h.refInternal = 1
      · rw [dyingCount_cons_dying h t ha hi]
        omega
      · rw [dyingCount_cons_surviving h t (Or.inr hi)]
        omega
    · rw [Bool.not_eq_true] at ha
      rw [aliveCount_cons_dead h t ha, dyingCount_cons_surviving h t (Or.inl ha)]
      exact ih

/-- A list containing a live handle has a positive live count. -/
lemma aliveCount_pos_of_mem (hs : List HandleRC) (h : HandleRC)
    (hmem : h ∈ hs) (ha : h.alive = true) : 1 ≤ aliveCount hs := by
  unfold aliveCount
  have hf : h ∈ hs.filter (fun x => x.alive) :=
    List.mem_filter.mpr ⟨hmem, by simpa using ha⟩
  have hne : hs.filter (fun x => x.alive) ≠ [] := List.ne_nil_of_mem hf
  have := List.length_pos.mpr hne
  omega

/-- Live count after the force pass: the handles that survive are exactly
the live ones whose internal count exceeded one. -/
lemma aliveCount_map_stepHandle (hs : List HandleRC)
    (hpos : ∀ h ∈ hs, h.alive = true → 1 ≤ h.refInternal) :
    aliveCount (hs.map stepHandle) = aliveCount hs - dyingCount hs := by
  induction hs with
  | nil => simp [aliveCount, dyingCount]
  | cons h t ih =>
    have hposT : ∀ x ∈ t, x.alive = true → 1 ≤ x.refInternal := by
      intro x hx
      exact hpos x (List.mem_cons_of_mem h hx)
    have hdt := dyingCount_le_aliveCount t
    have iht := ih hposT
    rw [List.map_cons]
    by_cases ha : h.alive = true
    · have hposH := hpos h (List.mem_cons_self h t) ha
      rw [aliveCount_cons_alive h t ha]
      by_cases hi : h.refInternal = 1
      · rw [dyingCount_cons_dying h t ha hi, stepHandle_dying h ha hi,
          aliveCount_cons_dead _ _ rfl]
        omega
      · rw [dyingCount_cons_surviving h t (Or.inr hi),
          stepHandle_surviving h ha hposH hi,
          aliveCount_cons_alive _ _ (by simpa using ha)]
        omega
    · rw [Bool.not_eq_true] at ha
      rw [stepHandle_dead h ha, aliveCount_cons_dead h _ ha,
        aliveCount_cons_dead h t ha, dyingCount_cons_surviving h t (Or.inl ha)]
      exact iht

/-- Characterization of the force-release pass: when the buffer is live,
every live handle has a positive internal count, and the buffer's internal
count strictly exceeds the live-handle count, the pass decrements every live
handle's internal count by one (deleting those that reach zero), decrements
the buffer's internal count once per deleted handle, and leaves the buffer
live. -/
lemma forceReleaseList_spec (hs : List HandleRC) : ∀ (bufInt : Nat),
    (∀ h ∈ hs, h.alive = true → 1 ≤ h.refInternal) →
    aliveCount hs < bufInt →
    forceReleaseList hs bufInt true =
      (hs.map stepHandle, bufInt - dyingCount hs, true) := by
  induction hs with
  | nil =>
    intro bufInt _ _
    simp [forceReleaseList, dyingCount, aliveCount]
  | cons h t ih =>
    intro bufInt hpos hlt
    have hposT : ∀ x ∈ t, x.alive = true → 1 ≤ x.refInternal := by
      intro x hx
      exact hpos x (List.mem_cons_of_mem h hx)
    rw [List.map_cons]
    unfold forceReleaseList
    by_cases ha : h.alive = true
    · have hposH := hpos h (List.mem_cons_self h t) ha
      have haC := aliveCount_cons_alive h t ha
      rw [if_neg (show ¬ h.alive = false by simp [ha])]
      by_cases hi : h.refInternal = 1
      · rw [if_neg (show ¬ h.refInternal - 1 ≠ 0 by omega),
          if_pos (show bufInt - 1 ≠ 0 by omega)]
        simp only [ih (bufInt - 1) hposT (by omega)]
        rw [dyingCount_cons_dying h t ha hi, stepHandle_dying h ha hi]
        refine congrArg₂ _ rfl (congrArg₂ _ ?_ rfl)
        omega
      · rw [if_pos (show h.refInternal - 1 ≠ 0 by omega)]
        simp only [ih bufInt hposT (by omega)]
        rw [dyingCount_cons_surviving h t (Or.inr hi),
          stepHandle_surviving h ha hposH hi]
    · rw [Bool.not_eq_true] at ha
      have haC := aliveCount_cons_dead h t ha
      rw [if_pos ha]
      simp only [ih bufInt hposT (by omega)]
      rw [dyingCount_cons_surviving h t (Or.inl ha), stepHandle_dead h ha]

/-- Full characterization of the buffer's internal release: the internal
count drops by one and the object is destroyed exactly when the new count is
zero. -/
lemma commandBufferReleaseInternal_spec (w : BufWorld) :
    (commandBufferReleaseInternal w).bufInternal = w.bufInternal - 1 ∧
    (commandBufferReleaseInternal w).bufExternal = w.bufExternal ∧
    (commandBufferReleaseInternal w).handles = w.handles ∧
    ((commandBufferReleaseInternal w).bufAlive = false ↔
      (w.bufInternal - 1 = 0 ∨ w.bufAlive = false)) := by
  unfold commandBufferReleaseInternal
  by_cases hi : w.bufInternal - 1 ≠ 0
  · rw [if_pos hi]
    exact ⟨rfl, rfl, rfl, by simp [hi]⟩
  · rw [if_neg hi]
    push_neg at hi
    exact ⟨by simpa using hi.symm, rfl, rfl, by simp [hi]⟩

/-- A release that leaves the external count positive skips the
force-release pass: it is exactly the buffer's internal release on the
externally-decremented state. -/
lemma urCommandBufferReleaseExp_ext_pos (w : BufWorld)
    (he : w.bufExternal - 1 ≠ 0) :
    urCommandBufferReleaseExp w =
      commandBufferReleaseInternal { w with bufExternal := w.bufExternal - 1 } := by
  simp only [urCommandBufferReleaseExp]
  rw [if_neg he]

/-- A release that brings the external count to zero force-releases every
owned handle (decrementing the buffer's internal count once per handle that
dies) and only then runs the buffer's own internal release. -/
lemma urCommandBufferReleaseExp_ext_zero (w : BufWorld)
    (he : w.bufExternal - 1 = 0) (halive : w.bufAlive = true)
    (hpos : ∀ h ∈ w.handles, h.alive = true → 1 ≤ h.refInternal)
    (hlt : aliveCount w.handles < w.bufInternal) :
    urCommandBufferReleaseExp w =
      commandBufferReleaseInternal
        { bufExternal := w.bufExternal - 1,
          bufInternal := w.bufInternal - dyingCount w.handles,
          bufAlive := true,
          handles := w.handles.map stepHandle } := by
  simp only [urCommandBufferReleaseExp]
  rw [if_pos he, halive, forceReleaseList_spec w.handles w.bufInternal hpos hlt]

end RC

/-- Claim C2: a command buffer is created with external and internal counts
both 1; Retain increments both; Release decrements the external count, and
exactly when it reaches zero force-releases every owned command handle
(each live handle's internal count drops by one, those reaching zero are
deleted and each deletion drops the buffer's internal count) before the
buffer's own internal release runs; the buffer is destroyed exactly when its
internal count reaches 0; and a still-live command handle — which holds one
unit of the buffer's internal count (visible in the append conjunct) — keeps
the buffer alive after the user's last external release. -/
theorem commandBuffer_lifecycle :
    (RC.createBuffer.bufExternal = 1 ∧ RC.createBuffer.bufInternal = 1 ∧
      RC.createBuffer.bufAlive = true ∧ RC.createBuffer.handles = []) ∧
    (∀ w : RC.BufWorld, RC.urCommandBufferRetainExp w =
      { w with bufExternal := w.bufExternal + 1,
               bufInternal := w.bufInternal + 1 }) ∧
    (∀ w : RC.BufWorld, RC.appendKernelCommand w =
      { w with bufInternal := w.bufInternal + 1,
               handles := w.handles ++ [⟨1, 2, true⟩] }) ∧
    (∀ w : RC.BufWorld, (RC.urCommandBufferReleaseExp w).bufExternal =
      w.bufExternal - 1) ∧
    (∀ w : RC.BufWorld, w.bufExternal - 1 ≠ 0 →
      (RC.urCommandBufferReleaseExp w).handles = w.handles ∧
      (RC.urCommandBufferReleaseExp w).bufInternal = w.bufInternal - 1) ∧
    (∀ w : RC.BufWorld, RC.Invariant w → w.bufExternal = 1 →
      (RC.urCommandBufferReleaseExp w).handles =
        w.handles.map RC.stepHandle ∧
      (RC.urCommandBufferReleaseExp w).bufInternal =
        w.bufInternal - RC.dyingCount w.handles - 1 ∧
      ((RC.urCommandBufferReleaseExp w).bufAlive = true ↔
        w.bufInternal - RC.dyingCount w.handles - 1 ≠ 0)) ∧
    (∀ w : RC.BufWorld,
      (RC.commandBufferReleaseInternal w).bufInternal = w.bufInternal - 1 ∧
      ((RC.commandBufferReleaseInternal w).bufAlive = false ↔
        (w.bufInternal - 1 = 0 ∨ w.bufAlive = false))) ∧
    (∀ (w : RC.BufWorld) (j : Nat) (h : RC.HandleRC), RC.Invariant w →
      w.bufExternal = 1 → w.handles[j]? = some h → h.alive = true →
      2 ≤ h.refInternal →
      (RC.urCommandBufferReleaseExp w).bufAlive = true ∧
      1 ≤ (RC.urCommandBufferReleaseExp w).bufInternal ∧
      (RC.urCommandBufferReleaseExp w).handles[j]? =
        some { h with refInternal := h.refInternal - 1 }) := by
  refine ⟨⟨rfl, rfl, rfl, rfl⟩, fun w => rfl, fun w => rfl, ?_, ?_, ?_, ?_, ?_⟩
  · intro w
    by_cases he : w.bufExternal - 1 = 0
    · simp only [RC.urCommandBufferReleaseExp]
      rw [if_pos he]
      rcases hrec : RC.forceReleaseList w.handles w.bufInternal w.bufAlive
        with ⟨hs, bi, ba⟩
      simp only [hrec]
      rw [(RC.commandBufferReleaseInternal_spec _).2.1]
    · rw [RC.urCommandBufferReleaseExp_ext_pos w he]
      rw [(RC.commandBufferReleaseInternal_spec _).2.1]
  · intro w he
    rw [RC.urCommandBufferReleaseExp_ext_pos w he]
    exact ⟨(RC.commandBufferReleaseInternal_spec _).2.2.1,
      (RC.commandBufferReleaseInternal_spec _).1⟩
  · intro w hInv he1
    obtain ⟨halive, hint, hpos⟩ := hInv
    have he : w.bufExternal - 1 = 0 := by omega
    have hlt : RC.aliveCount w.handles < w.bufInternal := by omega
    rw [RC.urCommandBufferReleaseExp_ext_zero w he halive hpos hlt]
    obtain ⟨h1, h2, h3, h4⟩ := RC.commandBufferReleaseInternal_spec
      { bufExternal := w.bufExternal - 1,
        bufInternal := w.bufInternal - RC.dyingCount w.handles,
        bufAlive := true, handles := w.handles.map RC.stepHandle }
    refine ⟨h3, ?_, ?_⟩
    · rw [h1]
    · have h4' : (RC.commandBufferReleaseInternal
          { bufExternal := w.bufExternal - 1,
            bufInternal := w.bufInternal - RC.dyingCount w.handles,
            bufAlive := true,
            handles := w.handles.map RC.stepHandle }).bufAlive = false ↔
          w.bufInternal - RC.dyingCount w.handles - 1 = 0 := by
        simpa using h4
      constructor
      · intro ht h0
        rw [h4'.mpr h0] at ht
        exact absurd ht (by simp)
      · intro hne
        cases hb : (RC.commandBufferReleaseInternal
            { bufExternal := w.bufExternal - 1,
              bufInternal := w.bufInternal - RC.dyingCount w.handles,
              bufAlive := true,
              handles := w.handles.map RC.stepHandle }).bufAlive
        · exact absurd (h4'.mp hb) hne
        · rfl
  · intro w
    exact ⟨(RC.commandBufferReleaseInternal_spec w).1,
      (RC.commandBufferReleaseInternal_spec w).2.2.2⟩
  · intro w j h hInv he1 hj ha hi2
    obtain ⟨halive, hint, hpos⟩ := hInv
    have hposH : 1 ≤ h.refInternal := by omega
    have hmem : h ∈ w.handles := by
      obtain ⟨hjlt, heq⟩ := List.getElem?_eq_some.mp hj
      exact heq ▸ List.getElem_mem hjlt
    have hstep := RC.stepHandle_surviving h ha hposH (by omega)
    have hAmap : RC.aliveCount (w.handles.map RC.stepHandle) =
        RC.aliveCount w.handles - RC.dyingCount w.handles :=
      RC.aliveCount_map_stepHandle w.handles hpos
    have hmem' : RC.stepHandle h ∈ w.handles.map RC.stepHandle :=
      List.mem_map_of_mem _ hmem
    have halive' : (RC.stepHandle h).alive = true := by
      rw [hstep]
      exact ha
    have hA1 : 1 ≤ RC.aliveCount (w.handles.map RC.stepHandle) :=
      RC.aliveCount_pos_of_mem _ _ hmem' halive'
    have hD := RC.dyingCount_le_aliveCount w.handles
    have he : w.bufExternal - 1 = 0 := by omega
    have hlt : RC.aliveCount w.handles < w.bufInternal := by omega
    rw [RC.urCommandBufferReleaseExp_ext_zero w he halive hpos hlt]
    obtain ⟨h1, h2, h3, h4⟩ := RC.commandBufferReleaseInternal_spec
      { bufExternal := w.bufExternal - 1,
        bufInternal := w.bufInternal - RC.dyingCount w.handles,
        bufAlive := true, handles := w.handles.map RC.stepHandle }
    refine ⟨?_, ?_, ?_⟩
    · cases hb : (RC.commandBufferReleaseInternal
          { bufExternal := w.bufExternal - 1,
            bufInternal := w.bufInternal - RC.dyingCount w.handles,
            bufAlive := true,
            handles := w.handles.map RC.stepHandle }).bufAlive
      · exfalso
        have hdis := h4.mp hb
        rcases hdis with h0 | habs
        · have h0' : w.bufInternal - RC.dyingCount w.handles - 1 = 0 := h0
          omega
        · exact absurd habs (by simp)
      · rfl
    · rw [h1]
      show 1 ≤ w.bufInternal - RC.dyingCount w.handles - 1
      omega
    · rw [h3]
      rw [List.getElem?_map RC.stepHandle w.handles j, hj]
      simp [hstep]

/-- Claim C2 witness: on the world obtained by creating a buffer and
recording one kernel command (buffer counts 1/2, handle counts 1/2), the
user's single external release leaves the buffer alive — the still-live
command handle keeps one internal unit — with the handle's internal count
dropped by one. -/
theorem commandBuffer_lifecycle_witness :
    (RC.urCommandBufferReleaseExp
      (RC.appendKernelCommand RC.createBuffer)).bufAlive = true ∧
    1 ≤ (RC.urCommandBufferReleaseExp
      (RC.appendKernelCommand RC.createBuffer)).bufInternal ∧
    (RC.urCommandBufferReleaseExp
      (RC.appendKernelCommand RC.createBuffer)).handles[0]? =
      some ⟨1, 1, true⟩ :=
  commandBuffer_lifecycle.2.2.2.2.2.2.2
    (RC.appendKernelCommand RC.createBuffer) 0 ⟨1, 2, true⟩
    ⟨rfl, rfl, by decide⟩ rfl rfl rfl (by decide)
